import Mathlib

/-!
Verification development for the `bevy_io_sink` crate (`src/lib.rs`).

The crate provides:
* `FileSink<R>`: an `IoWriter` that overwrites a single file in place; its
  `write` serializes the record with `serde_json::to_vec`, seeks the buffered
  writer to offset 0, writes all bytes, truncates the underlying file to the
  serialized length via `set_len`, and flushes.
* `spawn_io_sink_task`: the persistence task; it calls `init` (logging a
  failure and proceeding), then loops `rx.recv()` calling `write` (logging
  failures and continuing), then calls `close` once the channel is closed.
* the loader closure in `FileSinkPlugin::build`: opens/creates the file, reads
  it to a string, applies `serde_json::from_str(..).unwrap_or_default()`, and
  sends the result once over a dedicated channel; open and read failures log
  and return early without sending.
* `sync_file`: the change-watcher system; clones the resource and `try_send`s
  it on the unbounded channel, logging (and swallowing) a send failure.

Bytes are modelled as `Nat`, files as `List Nat`, and the `BufWriter` as a
file plus an in-memory buffer with a capacity, following the standard
`BufWriter` contract: `seek` flushes the buffer first, `write_all` buffers
small writes and writes through large ones, `flush` drains the buffer into
the file at the current position.
-/

namespace BevyIoSink

/-- A byte of file content. -/
abbrev Byte := Nat

/-- The underlying file as seen by the OS: its contents and the current
seek position of the open handle. -/
structure FileState where
  contents : List Byte
  pos : Nat
deriving Repr, DecidableEq

/-- Write `data` into `contents` starting at offset `pos`, zero-padding if
`pos` lies past the end, keeping any bytes after the written range. -/
def writeAt (contents : List Byte) (pos : Nat) (data : List Byte) : List Byte :=
  contents.take pos ++ List.replicate (pos - contents.length) 0 ++ data
    ++ contents.drop (pos + data.length)

/-- Model of `set_len` on the file handle: truncate to `n` bytes, zero-extending if
the file was shorter. The seek position is unchanged. -/
def setLen (f : FileState) (n : Nat) : FileState :=
  { f with contents := f.contents.take n ++ List.replicate (n - f.contents.length) 0 }

/-- The `BufWriter<File>` held by `FileSink`: the underlying file, the
in-memory buffer of not-yet-written bytes, and the buffer capacity
(`64 * 1024` in `FileSink::init`). -/
structure BufFile where
  file : FileState
  buf : List Byte
  cap : Nat
deriving Repr, DecidableEq

/-- Model of `BufWriter::flush`: write the buffered bytes into the file at the current
position, advance the position, and empty the buffer. -/
def flushBuf (s : BufFile) : BufFile :=
  { file := { contents := writeAt s.file.contents s.file.pos s.buf,
              pos := s.file.pos + s.buf.length },
    buf := [], cap := s.cap }

/-- Model of `BufWriter::seek(SeekFrom::Start(n))`: flush the buffer, then move the
seek position to `n`. -/
def seekStart (s : BufFile) (n : Nat) : BufFile :=
  let s := flushBuf s
  { s with file := { s.file with pos := n } }

/-- Model of `BufWriter::write_all`: if the bytes fit in the buffer, append them to
the buffer; otherwise flush first and then either write through (when the
data is at least a whole buffer) or start a fresh buffer with the data. -/
def bufWriteAll (s : BufFile) (data : List Byte) : BufFile :=
  if s.buf.length + data.length ≤ s.cap then
    { s with buf := s.buf ++ data }
  else
    let t := flushBuf s
    if t.cap ≤ data.length then
      { t with file := { contents := writeAt t.file.contents t.file.pos data,
                         pos := t.file.pos + data.length } }
    else
      { t with buf := data }

/-- Model of `BufWriter::get_mut().set_len(n)`: truncate the underlying file directly,
bypassing the buffer. -/
def setLenBF (s : BufFile) (n : Nat) : BufFile :=
  { s with file := setLen s.file n }

/-- The state of a `FileSink<R>`: `writer` is `None` until `init` succeeds. -/
structure FileSinkState where
  writer : Option BufFile
deriving Repr, DecidableEq

/-- Model of `FileSink::new`: no writer yet. -/
def FileSinkState.new : FileSinkState := { writer := none }

/-- A successful `FileSink::init`: open the destination (whose current
contents are `disk`) and install a buffered writer with a 64 KiB buffer. -/
def FileSinkState.init (disk : List Byte) : FileSinkState :=
  { writer := some { file := { contents := disk, pos := 0 }, buf := [], cap := 64 * 1024 } }

/-- Outcome of one call to `FileSink::write`: success or an io error, each
with the sink state afterwards, or a panic (the `expect` on a missing
writer). -/
inductive WriteResult where
  | ok (st : FileSinkState)
  | err (st : FileSinkState)
  | panicked
deriving Repr, DecidableEq

/-- Model of `FileSink::write`, for a record type `R` whose `serde_json::to_vec` is
modelled by `ser` (`none` = serialization error). Mirrors the source order:
serialize first (returning the error before touching the writer), then
`expect` the writer, then seek to 0, write all bytes, `set_len` to the
serialized length, and flush. -/
def FileSink.write {R : Type} (ser : R → Option (List Byte))
    (self : FileSinkState) (data : R) : WriteResult :=
  match ser data with
  | none => .err self
  | some json =>
    match self.writer with
    | none => .panicked
    | some w =>
      let w := seekStart w 0
      let w := bufWriteAll w json
      let w := setLenBF w json.length
      let w := flushBuf w
      .ok { writer := some w }

/-! Part 1: basic facts about the file model. -/

theorem setLen_list_length (l : List Byte) (n : Nat) :
    (l.take n ++ List.replicate (n - l.length) 0).length = n := by
  simp only [List.length_append, List.length_take, List.length_replicate]
  omega

theorem writeAt_zero (c d : List Byte) :
    writeAt c 0 d = d ++ c.drop d.length := by
  simp [writeAt]

theorem writeAt_nil_at_end (c : List Byte) (p : Nat) (h : c.length = p) :
    writeAt c p [] = c := by
  simp [writeAt, ← h, List.take_length]

theorem flushBuf_empty (s : BufFile) (h : s.buf = []) (hp : s.file.contents.length = s.file.pos) :
    flushBuf s = s := by
  cases s with
  | mk file buf cap =>
    cases file with
    | mk contents pos =>
      simp only at h hp
      subst h
      simp [flushBuf, writeAt_nil_at_end contents pos hp]

/-- The seek-write-truncate-flush pipeline of `FileSink::write`, applied to
any buffered writer, leaves the file containing exactly `json`, with the
position at its end and an empty buffer. -/
theorem pipelineWrite (w : BufFile) (json : List Byte) :
    flushBuf (setLenBF (bufWriteAll (seekStart w 0) json) json.length) =
      { file := { contents := json, pos := json.length }, buf := [], cap := w.cap } := by
  have hseek : seekStart w 0 =
      { file := { contents := writeAt w.file.contents w.file.pos w.buf, pos := 0 },
        buf := [], cap := w.cap } := rfl
  set c0 := writeAt w.file.contents w.file.pos w.buf with hc0
  rw [hseek]
  by_cases hfit : json.length ≤ w.cap
  case pos =>
    have hbw : bufWriteAll { file := { contents := c0, pos := 0 }, buf := [], cap := w.cap } json
        = { file := { contents := c0, pos := 0 }, buf := json, cap := w.cap } := by
      simp [bufWriteAll, hfit]
    rw [hbw]
    have hsl : setLenBF { file := { contents := c0, pos := 0 }, buf := json, cap := w.cap }
          json.length
        = { file := { contents := c0.take json.length ++
              List.replicate (json.length - c0.length) 0, pos := 0 },
            buf := json, cap := w.cap } := rfl
    rw [hsl]
    set c1 := c0.take json.length ++ List.replicate (json.length - c0.length) 0 with hc1
    have hlen1 : c1.length = json.length := setLen_list_length c0 json.length
    have hdrop : c1.drop json.length = [] := by rw [← hlen1, List.drop_length]
    simp [flushBuf, writeAt_zero, hdrop]
  case neg =>
    have hbw : bufWriteAll { file := { contents := c0, pos := 0 }, buf := [], cap := w.cap } json
        = { file := { contents := json ++ c0.drop json.length, pos := json.length },
            buf := [], cap := w.cap } := by
      simp only [bufWriteAll, List.length_nil, Nat.zero_add]
      rw [if_neg hfit]
      simp only [flushBuf, List.length_nil, Nat.add_zero, writeAt_zero, List.length_nil,
        List.nil_append, List.drop_zero]
      rw [if_pos (by omega : w.cap ≤ json.length)]
      simp
    rw [hbw]
    set c2 := json ++ c0.drop json.length with hc2
    have htake : c2.take json.length = json := by
      rw [hc2, List.take_append_of_le_length (le_refl _), List.take_length]
    have hrep : json.length - c2.length = 0 := by
      rw [hc2]
      simp only [List.length_append]
      omega
    have hsl : setLenBF { file := { contents := c2, pos := json.length }, buf := [], cap := w.cap } json.length = { file := { contents := json, pos := json.length }, buf := [], cap := w.cap } := by
      simp [setLenBF, setLen, htake, hrep]
    rw [hsl]
    exact flushBuf_empty _ rfl rfl

/-- C1 core: after a successful `FileSink::write` of a record serializing to
`json`, the writer is present, its buffer is flushed, and the file contents
are exactly `json`. -/
theorem write_ok_shape {R : Type} (ser : R → Option (List Byte)) (w : BufFile) (r : R)
    (json : List Byte) (hser : ser r = some json) :
    FileSink.write ser { writer := some w } r =
      .ok { writer := some { file := { contents := json, pos := json.length },
                             buf := [], cap := w.cap } } := by
  simp only [FileSink.write, hser]
  rw [pipelineWrite]

/-! Part 2: the persistence task (`spawn_io_sink_task`). -/

/-- Observable events of the persistence task, in program order: the logged
outcome of `init`, each `write` call, the panic of `FileSink::write` when the
writer is missing, and the outcome of `close`. -/
inductive TaskEvent where
  | initOk
  | initErr
  | writeOk
  | writeErr
  | panicEvent
  | closeOk
  | closeErr
deriving Repr, DecidableEq

/-- Result of the receive-and-write loop of `spawn_io_sink_task` when
instantiated with a `FileSink`: either the loop drains the whole channel, or
`FileSink::write` panics partway. -/
inductive LoopResult where
  | done (st : FileSinkState) (events : List TaskEvent)
  | panicked (events : List TaskEvent)
deriving Repr, DecidableEq

/-- Prefix an event onto a loop result's event list. -/
def LoopResult.consEvent (e : TaskEvent) : LoopResult → LoopResult
  | .done st evs => .done st (e :: evs)
  | .panicked evs => .panicked (e :: evs)

/-- The `while let Ok(msg) = rx.recv().await` loop of `spawn_io_sink_task`
with a `FileSink` writer: `msgs` is the FIFO sequence of records received
before the channel closes. A write error is logged (`writeErr`) and the loop
continues; a panic aborts the task. -/
def runLoop {R : Type} (ser : R → Option (List Byte)) :
    FileSinkState → List R → LoopResult
  | st, [] => .done st []
  | st, m :: ms =>
    match FileSink.write ser st m with
    | .ok st2 => (runLoop ser st2 ms).consEvent .writeOk
    | .err st2 => (runLoop ser st2 ms).consEvent .writeErr
    | .panicked => .panicked [.panicEvent]

/-- Outcome of a whole run of the persistence task: its event log and the
final sink state (`none` if the task panicked). -/
structure TaskResult where
  events : List TaskEvent
  final : Option FileSinkState
deriving Repr, DecidableEq

/-- A whole run of `spawn_io_sink_task` with a `FileSink` writer: `init` is
attempted (on failure the error is logged and the writer stays `none`), the
loop drains `msgs`, and then `close` runs — `FileSink` uses the trait's
default `close`, which always returns `Ok`, hence `closeOk`. -/
def runIoSinkTask {R : Type} (ser : R → Option (List Byte)) (initSucceeds : Bool)
    (disk : List Byte) (msgs : List R) : TaskResult :=
  let st0 := if initSucceeds then FileSinkState.init disk else FileSinkState.new
  let ev0 := if initSucceeds then TaskEvent.initOk else TaskEvent.initErr
  match runLoop ser st0 msgs with
  | .done st evs => { events := ev0 :: evs ++ [TaskEvent.closeOk], final := some st }
  | .panicked evs => { events := ev0 :: evs, final := none }

/-- As long as the writer is present, `FileSink::write` never panics: it
either succeeds (leaving the serialized bytes as the whole file) or fails on
serialization (leaving the state untouched). -/
theorem write_some_cases {R : Type} (ser : R → Option (List Byte)) (w : BufFile) (m : R) :
    (∃ json, ser m = some json ∧
      FileSink.write ser { writer := some w } m =
        .ok { writer := some { file := { contents := json, pos := json.length },
                               buf := [], cap := w.cap } }) ∨
    (ser m = none ∧ FileSink.write ser { writer := some w } m = .err { writer := some w }) := by
  cases hm : ser m with
  | none => exact Or.inr ⟨rfl, by simp [FileSink.write, hm]⟩
  | some json => exact Or.inl ⟨json, rfl, write_ok_shape ser w m json hm⟩

/-- The loop never aborts while the writer is present: every received record
produces exactly one write event (success or logged failure), and the writer
is still present afterwards, with its capacity unchanged. -/
theorem runLoop_total {R : Type} (ser : R → Option (List Byte)) :
    ∀ (msgs : List R) (w : BufFile),
      ∃ w2 evs, runLoop ser { writer := some w } msgs = .done { writer := some w2 } evs ∧
        evs.length = msgs.length ∧ w2.cap = w.cap
  | [], w => ⟨w, [], rfl, rfl, rfl⟩
  | m :: ms, w => by
    rcases write_some_cases ser w m with ⟨json, _, hw⟩ | ⟨_, hw⟩
    · obtain ⟨w2, evs, hrec, hlen, hcap⟩ :=
        runLoop_total ser ms { file := { contents := json, pos := json.length },
                               buf := [], cap := w.cap }
      exact ⟨w2, .writeOk :: evs, by simp [runLoop, hw, hrec, LoopResult.consEvent],
        by simp [hlen], hcap⟩
    · obtain ⟨w2, evs, hrec, hlen, hcap⟩ := runLoop_total ser ms w
      exact ⟨w2, .writeErr :: evs, by simp [runLoop, hw, hrec, LoopResult.consEvent],
        by simp [hlen], hcap⟩

/-- Unfolding equation for `runLoop` on a nonempty message list. -/
theorem runLoop_cons {R : Type} (ser : R → Option (List Byte)) (st : FileSinkState)
    (m : R) (ms : List R) :
    runLoop ser st (m :: ms) =
      match FileSink.write ser st m with
      | .ok st2 => (runLoop ser st2 ms).consEvent .writeOk
      | .err st2 => (runLoop ser st2 ms).consEvent .writeErr
      | .panicked => .panicked [.panicEvent] := rfl

/-- Last write wins at the loop level: if the last received record serializes
to `lastJson`, the final file contents are exactly `lastJson` (whatever
happened before, including earlier serialization failures), and the buffer is
flushed. -/
theorem runLoop_last {R : Type} (ser : R → Option (List Byte)) :
    ∀ (msgs : List R) (w : BufFile) (mlast : R) (lastJson : List Byte),
      msgs.getLast? = some mlast → ser mlast = some lastJson →
      ∃ w2 evs, runLoop ser { writer := some w } msgs = .done { writer := some w2 } evs ∧
        w2.file.contents = lastJson ∧ w2.buf = []
  | [], _, _, _, hl, _ => by simp at hl
  | [m], w, mlast, lastJson, hl, hs => by
    simp only [List.getLast?_singleton, Option.some.injEq] at hl
    subst hl
    refine ⟨{ file := { contents := lastJson, pos := lastJson.length }, buf := [], cap := w.cap },
      [.writeOk], ?_, rfl, rfl⟩
    rw [runLoop_cons, write_ok_shape ser w _ lastJson hs]
    rfl
  | m :: m2 :: ms, w, mlast, lastJson, hl, hs => by
    rw [List.getLast?_cons_cons] at hl
    rcases write_some_cases ser w m with ⟨json, _, hw⟩ | ⟨_, hw⟩
    · obtain ⟨w2, evs, hrec, hc, hb⟩ :=
        runLoop_last ser (m2 :: ms) { file := { contents := json, pos := json.length },
                                      buf := [], cap := w.cap } mlast lastJson hl hs
      refine ⟨w2, .writeOk :: evs, ?_, hc, hb⟩
      rw [runLoop_cons, hw]
      show (runLoop ser _ (m2 :: ms)).consEvent .writeOk = _
      rw [hrec]
      rfl
    · obtain ⟨w2, evs, hrec, hc, hb⟩ := runLoop_last ser (m2 :: ms) w mlast lastJson hl hs
      refine ⟨w2, .writeErr :: evs, ?_, hc, hb⟩
      rw [runLoop_cons, hw]
      show (runLoop ser _ (m2 :: ms)).consEvent .writeErr = _
      rw [hrec]
      rfl

/-! Part 3: `spawn_io_sink_task` for an arbitrary `IoWriter`.

The trait's hooks all return `io::Result<()>`, modelled as a success flag
together with the writer state afterwards. This covers the generic shape of
the task: `init` (failure logged, then the loop runs anyway), the
receive-and-write loop, and `close` exactly once after the channel has closed
and drained. -/

/-- Classifier for write events. -/
def TaskEvent.isWriteEv : TaskEvent → Bool
  | .writeOk => true
  | .writeErr => true
  | _ => false

/-- Classifier for close events. -/
def TaskEvent.isCloseEv : TaskEvent → Bool
  | .closeOk => true
  | .closeErr => true
  | _ => false

/-- Classifier for init events. -/
def TaskEvent.isInitEv : TaskEvent → Bool
  | .initOk => true
  | .initErr => true
  | _ => false

/-- The receive-and-write loop of `spawn_io_sink_task` over an arbitrary
writer hook `writeFn` (success flag plus new state): every received record is
written, a failure is logged and the loop continues. -/
def genericLoop {R S : Type} (writeFn : S → R → Bool × S) : S → List R → List TaskEvent × S
  | s, [] => ([], s)
  | s, m :: ms =>
    let r := writeFn s m
    let rest := genericLoop writeFn r.2 ms
    ((if r.1 then TaskEvent.writeOk else TaskEvent.writeErr) :: rest.1, rest.2)

/-- Model of `spawn_io_sink_task` over an arbitrary `IoWriter`: run `init` and log its
outcome, run the loop over all records received before the channel closes,
then run `close` once and log its outcome. -/
def runGenericTask {R S : Type} (initFn : S → Bool × S) (writeFn : S → R → Bool × S)
    (closeFn : S → Bool × S) (s0 : S) (msgs : List R) : List TaskEvent × S :=
  let i := initFn s0
  let l := genericLoop writeFn i.2 msgs
  let c := closeFn l.2
  ((if i.1 then TaskEvent.initOk else TaskEvent.initErr) ::
      (l.1 ++ [if c.1 then TaskEvent.closeOk else TaskEvent.closeErr]), c.2)

/-- The loop emits exactly one write event per record, and nothing else. -/
theorem genericLoop_events {R S : Type} (writeFn : S → R → Bool × S) :
    ∀ (msgs : List R) (s : S),
      (genericLoop writeFn s msgs).1.length = msgs.length ∧
        ∀ e ∈ (genericLoop writeFn s msgs).1, e.isWriteEv = true
  | [], s => ⟨rfl, by intro e he; simp [genericLoop] at he⟩
  | m :: ms, s => by
    obtain ⟨hlen, hall⟩ := genericLoop_events writeFn ms (writeFn s m).2
    constructor
    · simp [genericLoop, hlen]
    · intro e he
      simp only [genericLoop] at he
      rcases List.mem_cons.mp he with he | he
      · subst he
        by_cases h : (writeFn s m).1 <;> simp [h, TaskEvent.isWriteEv]
      · exact hall e he

/-! Part 4: the loader closure in `FileSinkPlugin::build`. -/

/-- What the loader delivers over its dedicated channel. -/
inductive LoadOutcome (R : Type) where
  | delivered (r : R)
  | noDelivery
deriving Repr, DecidableEq

/-- Number of values the loader pushed onto its delivery channel. -/
def LoadOutcome.deliveryCount {R : Type} : LoadOutcome R → Nat
  | .delivered _ => 1
  | .noDelivery => 0

/-- The startup closure spawned by `FileSinkPlugin::build`: open (creating if
absent) the destination — on error, log and return without sending; read it
to a string — on error, log and return without sending; deserialize with
`serde_json::from_str(&buf).unwrap_or_default()`; send the result — on send
error, log. `deser` models `serde_json::from_str` (`none` = parse failure)
and `dflt` the record type's `Default` value. -/
def loaderTask {R : Type} (deser : String → Option R) (dflt : R)
    (openSucceeds readSucceeds sendSucceeds : Bool) (contents : String) : LoadOutcome R :=
  if !openSucceeds then .noDelivery
  else if !readSucceeds then .noDelivery
  else
    let msg := (deser contents).getD dflt
    if sendSucceeds then .delivered msg else .noDelivery

/-! Part 5: the sink channel and the `sync_file` system. -/

/-- The unbounded `async_channel` created in `IoSinkPlugin::build`, seen from
a sender: the queued records plus whether the channel has been closed (all
receivers gone, i.e. the persistence task terminated). -/
structure Channel (R : Type) where
  queue : List R
  closed : Bool
deriving Repr, DecidableEq

/-- Model of `Sender::try_send` on an unbounded channel: fails only when the channel
is closed; otherwise it enqueues the record immediately. There is no
capacity to exhaust, so the queue length never matters. -/
def trySend {R : Type} (c : Channel R) (r : R) : Channel R × Bool :=
  if c.closed then (c, false) else ({ c with queue := c.queue ++ [r] }, true)

/-- The `sync_file` system: clone the current resource value and `try_send`
it through the `IoSender`; on failure, log the error and return normally
(nothing is propagated to the caller). The returned list is the log. -/
def sync_file {R : Type} (c : Channel R) (res : R) : Channel R × List String :=
  let r := trySend c res
  if r.2 then (r.1, []) else (r.1, ["send error"])

/-! Part 6: `FileSinkPlugin` configuration and the change watcher. -/

/-- The configuration carried by `FileSinkPlugin<R>`: the destination path
and the `sync_res` flag. -/
structure FileSinkPluginCfg where
  sync_res : Bool
  path : String
deriving Repr, DecidableEq

/-- Model of `FileSinkPlugin::new`: stores the path and leaves `sync_res` false. -/
def FileSinkPluginCfg.new (path : String) : FileSinkPluginCfg :=
  { path := path, sync_res := false }

/-- Which optional systems `FileSinkPlugin::build` registers: the `sync_file`
watcher is added (under `run_if(resource_exists_and_changed)`) exactly when
`sync_res` is set. -/
def FileSinkPluginCfg.watcherRegistered (p : FileSinkPluginCfg) : Bool :=
  p.sync_res

/-- One `Update` tick of the change watcher: the system body runs only when
it is registered and `resource_exists_and_changed` holds (the resource exists
and changed since the previous tick); then it clones the resource and sends
it via `sync_file`. Otherwise the channel and log are untouched. -/
def watcherTick {R : Type} (registered resExists resChanged : Bool) (res : R)
    (c : Channel R) : Channel R × List String :=
  if registered && resExists && resChanged then sync_file c res else (c, [])

/-! Part 7: helper equations for whole-task runs. -/

/-- Unfolding equation for `runIoSinkTask`. -/
theorem runIoSinkTask_eq {R : Type} (ser : R → Option (List Byte)) (initSucceeds : Bool)
    (disk : List Byte) (msgs : List R) :
    runIoSinkTask ser initSucceeds disk msgs =
      match runLoop ser (if initSucceeds then FileSinkState.init disk else FileSinkState.new)
          msgs with
      | .done st evs =>
        { events := (if initSucceeds then TaskEvent.initOk else TaskEvent.initErr) ::
            (evs ++ [TaskEvent.closeOk]), final := some st }
      | .panicked evs =>
        { events := (if initSucceeds then TaskEvent.initOk else TaskEvent.initErr) :: evs,
          final := none } := rfl

/-! Part 8: the claims. -/

/-- C1: for every record, a successful `FileSink::write` leaves the
destination file's content exactly equal to the serialization of that record
— it seeks to offset 0, writes all serialized bytes, truncates the file to
the serialized byte length, and flushes — so the buffer is empty and no byte
of any earlier, longer write remains. -/
theorem C1_write_exact_contents {R : Type} (ser : R → Option (List Byte))
    (w : BufFile) (r : R) (json : List Byte) (hser : ser r = some json) :
    ∃ w2, FileSink.write ser { writer := some w } r = .ok { writer := some w2 } ∧
      w2.file.contents = json ∧ w2.buf = [] ∧ w2.file.contents.length = json.length :=
  ⟨_, write_ok_shape ser w r json hser, rfl, rfl, rfl⟩

/-- Witness for C1: overwriting a longer file `[7,7,7,7]` with the one-byte
record `[5]` leaves exactly `[5]` on disk. -/
theorem C1_witness :
    ∃ w2, FileSink.write (fun l : List Byte => some l)
        { writer := some { file := { contents := [7, 7, 7, 7], pos := 2 },
                           buf := [9], cap := 3 } } [5] = .ok { writer := some w2 } ∧
      w2.file.contents = [5] ∧ w2.buf = [] ∧ w2.file.contents.length = [5].length :=
  C1_write_exact_contents (fun l : List Byte => some l) _ [5] [5] rfl

/-- C2: for a sequence of records sent through one handle, once the channel
has drained and the writer flushed (a whole `runIoSinkTask` with successful
init), the destination holds exactly the serialization of the last record:
it deserializes back to that record and its byte length equals the
serialized length. -/
theorem C2_last_write_wins {R : Type} (ser : R → Option (List Byte))
    (deser : List Byte → Option R)
    (hround : ∀ r j, ser r = some j → deser j = some r)
    (disk : List Byte) (msgs : List R) (mlast : R) (lastJson : List Byte)
    (hlast : msgs.getLast? = some mlast) (hser : ser mlast = some lastJson) :
    ∃ w evs, runIoSinkTask ser true disk msgs =
        { events := evs, final := some { writer := some w } } ∧
      w.file.contents = lastJson ∧
      w.file.contents.length = lastJson.length ∧
      deser w.file.contents = some mlast ∧
      w.buf = [] := by
  obtain ⟨w2, evs, hrec, hc, hb⟩ :=
    runLoop_last ser msgs { file := { contents := disk, pos := 0 }, buf := [], cap := 64 * 1024 }
      mlast lastJson hlast hser
  refine ⟨w2, TaskEvent.initOk :: (evs ++ [TaskEvent.closeOk]), ?_, hc, by rw [hc], ?_, hb⟩
  · rw [runIoSinkTask_eq]
    have hloop : runLoop ser (if (true : Bool) then FileSinkState.init disk else FileSinkState.new)
        msgs = .done { writer := some w2 } evs := hrec
    rw [hloop]
    rfl
  · rw [hc]
    exact hround mlast lastJson hser

/-- Witness for C2: sending `[1]` then `[2,3]` over a file that initially
holds `[9,9,9,9]` leaves exactly `[2,3]` on disk. -/
theorem C2_witness :
    ∃ w evs, runIoSinkTask (fun l : List Byte => some l) true [9, 9, 9, 9] [[1], [2, 3]] =
        { events := evs, final := some { writer := some w } } ∧
      w.file.contents = [2, 3] ∧
      w.file.contents.length = ([2, 3] : List Byte).length ∧
      (fun l : List Byte => some l) w.file.contents = some ([2, 3] : List Byte) ∧
      w.buf = [] :=
  C2_last_write_wins (fun l : List Byte => some l) (fun l : List Byte => some l)
    (fun r j h => by injection h with h2; rw [h2]) [9, 9, 9, 9] [[1], [2, 3]] [2, 3] [2, 3]
    (by decide) rfl

/-- C3 counterexample: with a successful open but a failed read, the loader
returns early and delivers nothing — not the default value — refuting the
claim that a read failure yields the default. -/
theorem C3_counterexample :
    loaderTask (fun _ : String => none) (0 : Nat) true false true "x" ≠
      LoadOutcome.delivered 0 := by
  decide

/-- C3 amended: when the destination opens and reads successfully but its
contents fail to deserialize (which covers a freshly created, empty file),
the loader delivers the default value; an open failure or a read failure
makes it return early with no delivery at all (the error is only logged). -/
theorem C3_default_on_parse_failure {R : Type} (deser : String → Option R) (dflt : R)
    (contents : String) (hparse : deser contents = none) :
    loaderTask deser dflt true true true contents = .delivered dflt ∧
    loaderTask deser dflt true false true contents = .noDelivery ∧
    loaderTask deser dflt false true true contents = .noDelivery := by
  refine ⟨?_, rfl, rfl⟩
  simp [loaderTask, hparse]

/-- Witness for C3 (amended) with an always-failing parser and default 42. -/
theorem C3_witness :
    loaderTask (fun _ : String => none) (42 : Nat) true true true "" = .delivered 42 ∧
    loaderTask (fun _ : String => none) (42 : Nat) true false true "" = .noDelivery ∧
    loaderTask (fun _ : String => none) (42 : Nat) false true true "" = .noDelivery :=
  C3_default_on_parse_failure (fun _ : String => none) 42 "" rfl

/-- C4 counterexample: when the open fails, the loader delivers zero values
over its channel, refuting the claim that it delivers exactly once in every
startup, including open and read failures. -/
theorem C4_counterexample :
    (loaderTask (fun _ : String => none) (5 : Nat) false true true "abc").deliveryCount = 0 := by
  decide

/-- C4 amended: the loader delivers at most one value over its channel, and
it delivers exactly one precisely when the open, the read, and the send all
succeed; otherwise it delivers zero. -/
theorem C4_at_most_once {R : Type} (deser : String → Option R) (dflt : R)
    (o r s : Bool) (contents : String) :
    (loaderTask deser dflt o r s contents).deliveryCount ≤ 1 ∧
    ((loaderTask deser dflt o r s contents).deliveryCount = 1 ↔
      (o = true ∧ r = true ∧ s = true)) := by
  unfold loaderTask
  cases o <;> cases r <;> cases s <;> simp [LoadOutcome.deliveryCount]

/-- C5: in every run of the persistence task, the init event comes first
(before any write); even when init fails the loop still runs over every
received record; and there is exactly one close event, the last one, emitted
only after the channel has closed and every record has been handled. -/
theorem C5_task_lifecycle {R S : Type} (initFn : S → Bool × S) (writeFn : S → R → Bool × S)
    (closeFn : S → Bool × S) (s0 : S) (msgs : List R) :
    ∃ mid cl,
      (runGenericTask initFn writeFn closeFn s0 msgs).1 =
        (if (initFn s0).1 then TaskEvent.initOk else TaskEvent.initErr) :: (mid ++ [cl]) ∧
      mid.length = msgs.length ∧
      (∀ e ∈ mid, e.isWriteEv = true ∧ e.isCloseEv = false) ∧
      cl.isCloseEv = true ∧
      ((if (initFn s0).1 then TaskEvent.initOk else TaskEvent.initErr) :
        TaskEvent).isCloseEv = false := by
  obtain ⟨hlen, hall⟩ := genericLoop_events writeFn msgs (initFn s0).2
  refine ⟨(genericLoop writeFn (initFn s0).2 msgs).1,
    if (closeFn (genericLoop writeFn (initFn s0).2 msgs).2).1 then TaskEvent.closeOk
      else TaskEvent.closeErr,
    rfl, hlen, ?_, ?_, ?_⟩
  · intro e he
    have hw := hall e he
    refine ⟨hw, ?_⟩
    cases e <;> simp_all [TaskEvent.isWriteEv, TaskEvent.isCloseEv]
  · by_cases h : (closeFn (genericLoop writeFn (initFn s0).2 msgs).2).1 <;>
      simp [h, TaskEvent.isCloseEv]
  · by_cases h : (initFn s0).1 <;> simp [h, TaskEvent.isCloseEv]

/-- C6: a record whose write fails produces a logged write-error event and
the task keeps going: every remaining record still gets exactly one write
event, the loop ends normally (no abort), and the writer is still present. -/
theorem C6_write_error_continues {R : Type} (ser : R → Option (List Byte)) (w : BufFile)
    (bad : R) (hbad : ser bad = none) (msgs : List R) :
    ∃ w2 evs, runLoop ser { writer := some w } (bad :: msgs) =
        .done { writer := some w2 } (TaskEvent.writeErr :: evs) ∧
      evs.length = msgs.length := by
  obtain ⟨w2, evs, hrec, hlen, _⟩ := runLoop_total ser msgs w
  refine ⟨w2, evs, ?_, hlen⟩
  have hw : FileSink.write ser { writer := some w } bad = .err { writer := some w } := by
    simp [FileSink.write, hbad]
  rw [runLoop_cons, hw]
  show (runLoop ser _ msgs).consEvent .writeErr = _
  rw [hrec]
  rfl

/-- Witness for C6: record 0 fails to serialize, records 1 and 2 are still
written afterwards. -/
theorem C6_witness :
    ∃ w2 evs, runLoop (fun n : Nat => if n = 0 then none else some [n])
        { writer := some { file := { contents := [3, 3, 3], pos := 0 }, buf := [], cap := 8 } }
        (0 :: [1, 2]) = .done { writer := some w2 } (TaskEvent.writeErr :: evs) ∧
      evs.length = [1, 2].length :=
  C6_write_error_continues (fun n : Nat => if n = 0 then none else some [n]) _ 0 rfl [1, 2]

/-- C7: enqueueing into the unbounded sink channel never fails for capacity
— `try_send` succeeds exactly when the channel is still open, whatever the
queue already holds — and on the only failure mode (channel closed because
the consumer is gone) `sync_file` logs the error and returns normally
instead of propagating it. -/
theorem C7_try_send_never_capacity_fails {R : Type} (c : Channel R) (r : R) :
    ((trySend c r).2 = !c.closed) ∧
    (trySend c r).1 = (if c.closed then c else { c with queue := c.queue ++ [r] }) ∧
    sync_file c r =
      (if c.closed then (c, ["send error"]) else ({ c with queue := c.queue ++ [r] }, [])) := by
  cases hc : c.closed <;> simp [trySend, sync_file, hc]

/-- C8: `FileSinkPlugin::new` leaves `sync_res` false, so the change watcher
is not registered by default; `build` registers it exactly when `sync_res`
is set; and a registered watcher does nothing on a tick without a change,
while on a change (with the resource present) it clones the resource and
sends it through the handle. -/
theorem C8_watcher_default_off {R : Type} (path : String) (res : R) (c : Channel R)
    (resExists resChanged : Bool) (p : FileSinkPluginCfg) :
    (FileSinkPluginCfg.new path).sync_res = false ∧
    (FileSinkPluginCfg.new path).watcherRegistered = false ∧
    p.watcherRegistered = p.sync_res ∧
    watcherTick true resExists false res c = (c, []) ∧
    watcherTick false resExists resChanged res c = (c, []) ∧
    watcherTick true true true res c = sync_file c res := by
  refine ⟨rfl, rfl, rfl, ?_, ?_, rfl⟩
  · simp [watcherTick]
  · simp [watcherTick]

/-- C9: calling `FileSink::write` while the writer is still `None` (init
never completed) panics on the `expect` rather than returning an io error —
provided serialization succeeds, which is checked first — so after a failed
init the persistence task aborts on the first received record: the run ends
at the panic event, no further records are handled and close never runs. -/
theorem C9_write_before_init_panics {R : Type} (ser : R → Option (List Byte)) (r : R)
    (json : List Byte) (hser : ser r = some json) (disk : List Byte) (ms : List R) :
    FileSink.write ser FileSinkState.new r = .panicked ∧
    runIoSinkTask ser false disk (r :: ms) =
      { events := [TaskEvent.initErr, TaskEvent.panicEvent], final := none } := by
  have hw : FileSink.write ser FileSinkState.new r = .panicked := by
    simp [FileSink.write, hser, FileSinkState.new]
  refine ⟨hw, ?_⟩
  have hloop : runLoop ser (if (false : Bool) then FileSinkState.init disk else FileSinkState.new)
      (r :: ms) = .panicked [.panicEvent] := by
    show runLoop ser FileSinkState.new (r :: ms) = _
    rw [runLoop_cons, hw]
  rw [runIoSinkTask_eq, hloop]
  rfl

/-- Witness for C9: with init failed, the very first record `[1]` makes the
task panic. -/
theorem C9_witness :
    FileSink.write (fun l : List Byte => some l) FileSinkState.new [1] = .panicked ∧
    runIoSinkTask (fun l : List Byte => some l) false [] [[1]] =
      { events := [TaskEvent.initErr, TaskEvent.panicEvent], final := none } :=
  C9_write_before_init_panics (fun l : List Byte => some l) [1] [1] rfl [] []

/-- C10: when serialization fails, `FileSink::write` returns the error
before any file operation — the state handed back is exactly the input
state, so the destination content, position and buffer are all unchanged. -/
theorem C10_ser_error_no_file_ops {R : Type} (ser : R → Option (List Byte))
    (st : FileSinkState) (r : R) (hser : ser r = none) :
    FileSink.write ser st r = .err st := by
  simp [FileSink.write, hser]

/-- Witness for C10: an always-failing serializer leaves the opened file
`[1,2]` untouched. -/
theorem C10_witness :
    FileSink.write (fun _ : Nat => none) (FileSinkState.init [1, 2]) 7 =
      .err (FileSinkState.init [1, 2]) :=
  C10_ser_error_no_file_ops (fun _ : Nat => none) (FileSinkState.init [1, 2]) 7 rfl

end BevyIoSink
